import Mathlib

/-!
Shallow embedding of the figma-mcp node-transformation core
(src/figma_mcp/clean_node.py) and verification of its specification.

Modelling conventions:
* A raw Figma node is a Python dict probed by key; we model it as a record
  whose fields are `Option`-valued (`none` = key absent).  Dict subscript
  access (which raises `KeyError` on a missing key) is modelled by `getKey`
  returning `Except PyErr`.
* A JSON number is modelled as `JNum`: its exact rational value together
  with the text Python string-formatting produces for it (used by the
  f-string interpolations such as f"{value}px").
* Style objects are Python dicts built incrementally by assignment; we model
  them as insertion-ordered association lists with `setKey` mirroring
  dict assignment (replace in place if the key exists, else append).
* `hashlib.md5(...).hexdigest()` is an arbitrary deterministic function of
  the serialized style text; it is threaded through as a parameter
  `md5 : String → String`, since no verified property depends on the
  particular digest.
* The six opaque component-metadata fields are copied verbatim and never
  inspected, so they are modelled as atoms (`Option String`).
-/

/-- A JSON number: exact rational value plus the text produced when Python
formats it (e.g. in f"\x7bvalue\x7dpx" or json.dumps). -/
structure JNum where
  val : ℚ
  txt : String
deriving DecidableEq, Repr

/-- The number 1, the default for a missing fill opacity (Python literal 1). -/
def jnum1 : JNum := ⟨1, "1"⟩

/-- A value stored in a style object: a string or a number. -/
inductive SVal where
  | str (s : String)
  | num (n : JNum)
deriving DecidableEq, Repr

/-- A style object: a Python dict from string keys to values, in insertion
order. -/
abbrev StyleObj := List (String × SVal)

/-- The style registry: a Python dict from style-id strings to style
objects, in insertion order. -/
abbrev Styles := List (String × StyleObj)

/-- An RGBA color record color\x7br,g,b\x7d (alpha is never read by the code). -/
structure RGBA where
  r : ℚ
  g : ℚ
  b : ℚ
deriving DecidableEq, Repr

/-- A fill descriptor (one element of a node's fills sequence). -/
structure Fill where
  type_ : Option String := none
  visible : Option Bool := none
  color : Option RGBA := none
  opacity : Option JNum := none
  imageRef : Option String := none
deriving DecidableEq, Repr

/-- absoluteBoundingBox sub-record; the code reads width and height. -/
structure BBox where
  width : JNum
  height : JNum
deriving DecidableEq, Repr

/-- The text-specific style sub-record of a TEXT node. -/
structure NodeStyle where
  fontFamily : Option String := none
  fontWeight : Option JNum := none
  fontSize : Option JNum := none
  lineHeightPx : Option JNum := none
  letterSpacing : Option JNum := none
  textAlignHorizontal : Option String := none
deriving DecidableEq, Repr

/-- The scalar (non-children) fields of a raw node.  `none` models an
absent dict key. -/
structure RawFields where
  id : Option String := none
  name : Option String := none
  type_ : Option String := none
  visible : Option Bool := none
  fills : Option (List Fill) := none
  layoutMode : Option String := none
  paddingLeft : Option JNum := none
  paddingRight : Option JNum := none
  paddingTop : Option JNum := none
  paddingBottom : Option JNum := none
  itemSpacing : Option JNum := none
  primaryAxisAlignItems : Option String := none
  counterAxisAlignItems : Option String := none
  absoluteBoundingBox : Option BBox := none
  cornerRadius : Option JNum := none
  cornerSmoothing : Option JNum := none
  style : Option NodeStyle := none
  characters : Option String := none
  componentPropertyReferences : Option String := none
  componentProperties : Option String := none
  componentPropertyDefinitions : Option String := none
  variantProperties : Option String := none
  componentSetId : Option String := none
  componentId : Option String := none
deriving DecidableEq, Repr

/-- A raw node: its scalar fields plus an optional ordered children list. -/
inductive RawNode where
  | mk : RawFields → Option (List RawNode) → RawNode

/-- Scalar fields of a raw node. -/
def RawNode.fields : RawNode → RawFields
  | .mk f _ => f

/-- Children list of a raw node (none = no children key). -/
def RawNode.children : RawNode → Option (List RawNode)
  | .mk _ c => c

/-- The scalar fields of a simplified (output) node. -/
structure SimpFields where
  id : String
  name : String
  type_ : String
  visible : Bool
  fillStyleId : Option String := none
  layoutStyleId : Option String := none
  textStyleId : Option String := none
  characters : Option String := none
  imageRef : Option String := none
  componentPropertyReferences : Option String := none
  componentProperties : Option String := none
  componentPropertyDefinitions : Option String := none
  variantProperties : Option String := none
  componentSetId : Option String := none
  componentId : Option String := none
deriving DecidableEq, Repr

/-- A simplified node: scalar fields plus an optional children list
(present exactly when the raw node had a children key). -/
inductive SimpNode where
  | mk : SimpFields → Option (List SimpNode) → SimpNode

/-- Scalar fields of a simplified node. -/
def SimpNode.fields : SimpNode → SimpFields
  | .mk f _ => f

/-- Children of a simplified node. -/
def SimpNode.children : SimpNode → Option (List SimpNode)
  | .mk _ c => c

/-- Python exceptions raised by the transformation core: only KeyError. -/
inductive PyErr where
  | keyError (key : String)
deriving DecidableEq, Repr

/-- Python dict subscript access d[k]: the value when the key is present,
KeyError(k) otherwise. -/
def getKey {α : Type} (o : Option α) (k : String) : Except PyErr α :=
  match o with
  | some v => .ok v
  | none => .error (.keyError k)

/-- Python int() applied to a rational: truncation toward zero.  With the
positive denominator of a normalized rational this is exactly
numerator tdiv denominator. -/
def pyInt (q : ℚ) : ℤ :=
  q.num.tdiv q.den

/-- Lowercase hexadecimal digits of n, zero-padded on the left to width w. -/
def natHexPad (w : ℕ) (n : ℕ) : String :=
  let ds := Nat.toDigits 16 n
  ⟨List.replicate (w - ds.length) '0' ++ ds⟩

/-- Python format f"\x7bn:02x\x7d" on an integer: lowercase hex, total width at
least 2 (a sign counts toward the width). -/
def intHex02 (n : ℤ) : String :=
  if n < 0 then "-" ++ natHexPad 1 n.natAbs else natHexPad 2 n.toNat

/-- Multiplication of a rational by 255, written on the raw fraction so
that it evaluates inside the kernel; mul255_eq below proves it equal to
ordinary multiplication on ℚ. -/
def mul255 (q : ℚ) : ℚ := mkRat (q.num * 255) q.den

/-- rgba_to_hex (clean_node.py lines 4-11): convert an RGBA record into a
lowercase #rrggbb string, truncating each channel times 255 with int(). -/
def rgba_to_hex (rgba : RGBA) : String :=
  let r := pyInt (mul255 rgba.r)
  let g := pyInt (mul255 rgba.g)
  let b := pyInt (mul255 rgba.b)
  "#" ++ intHex02 r ++ intHex02 g ++ intHex02 b

/-- mul255 is multiplication by 255. -/
theorem mul255_eq (q : ℚ) : mul255 q = q * 255 := by
  rw [mul255, Rat.mkRat_eq_div]
  push_cast
  rw [mul_div_right_comm, Rat.num_div_den]

/-- Serialization of one style value, as json.dumps renders it (style
values here are plain strings without escapes, or numbers). -/
def dumpSVal : SVal → String
  | .str s => "\"" ++ s ++ "\""
  | .num n => n.txt

/-- Serialization of a style object in the order given, json.dumps style. -/
def dumpStyle (s : StyleObj) : String :=
  "\x7b" ++ String.intercalate ", "
    (s.map fun kv => "\"" ++ kv.1 ++ "\": " ++ dumpSVal kv.2) ++ "\x7d"

/-- Lexicographic order on char lists by code point, as Python compares
strings. -/
def charListLe : List Char → List Char → Bool
  | [], _ => true
  | _ :: _, [] => false
  | c :: cs, d :: ds =>
    if c.toNat < d.toNat then true
    else if d.toNat < c.toNat then false
    else charListLe cs ds

/-- String comparison used by key sorting. -/
def strLe (a b : String) : Bool := charListLe a.data b.data

theorem charListLe_total : ∀ a b, charListLe a b = true ∨ charListLe b a = true
  | [], _ => Or.inl rfl
  | _ :: _, [] => Or.inr rfl
  | c :: cs, d :: ds => by
    rcases Nat.lt_trichotomy c.toNat d.toNat with h | h | h
    · exact Or.inl (by simp [charListLe, h])
    · rcases charListLe_total cs ds with ih | ih
      · exact Or.inl (by simp [charListLe, h, ih])
      · exact Or.inr (by simp [charListLe, h.symm, ih])
    · exact Or.inr (by simp [charListLe, h])

theorem charListLe_trans : ∀ a b c, charListLe a b = true →
    charListLe b c = true → charListLe a c = true
  | [], _, _, _, _ => rfl
  | _ :: _, [], _, h, _ => by simp [charListLe] at h
  | _ :: _, _ :: _, [], _, h => by simp [charListLe] at h
  | x :: xs, y :: ys, z :: zs, h₁, h₂ => by
    simp only [charListLe] at h₁ h₂ ⊢
    rcases Nat.lt_trichotomy x.toNat y.toNat with hxy | hxy | hxy <;>
      rcases Nat.lt_trichotomy y.toNat z.toNat with hyz | hyz | hyz
    · have hxz : x.toNat < z.toNat := by omega
      simp [hxz]
    · have hxz : x.toNat < z.toNat := by omega
      simp [hxz]
    · have e1 : ¬ y.toNat < z.toNat := by omega
      simp [e1, hyz] at h₂
    · have hxz : x.toNat < z.toNat := by omega
      simp [hxz]
    · have e1 : ¬ x.toNat < y.toNat := by omega
      have e2 : ¬ y.toNat < x.toNat := by omega
      have e3 : ¬ y.toNat < z.toNat := by omega
      have e4 : ¬ z.toNat < y.toNat := by omega
      have e5 : ¬ x.toNat < z.toNat := by omega
      have e6 : ¬ z.toNat < x.toNat := by omega
      simp only [e1, e2, if_false] at h₁
      simp only [e3, e4, if_false] at h₂
      simp only [e5, e6, if_false]
      exact charListLe_trans xs ys zs h₁ h₂
    · have e1 : ¬ y.toNat < z.toNat := by omega
      simp [e1, hyz] at h₂
    · have e1 : ¬ x.toNat < y.toNat := by omega
      simp [e1, hxy] at h₁
    · have e1 : ¬ x.toNat < y.toNat := by omega
      simp [e1, hxy] at h₁
    · have e1 : ¬ x.toNat < y.toNat := by omega
      simp [e1, hxy] at h₁

theorem charListLe_antisymm : ∀ a b, charListLe a b = true →
    charListLe b a = true → a = b
  | [], [], _, _ => rfl
  | [], _ :: _, _, h => by simp [charListLe] at h
  | _ :: _, [], h, _ => by simp [charListLe] at h
  | x :: xs, y :: ys, h₁, h₂ => by
    simp only [charListLe] at h₁ h₂
    rcases Nat.lt_trichotomy x.toNat y.toNat with hxy | hxy | hxy
    · have e1 : ¬ y.toNat < x.toNat := by omega
      simp [e1, hxy] at h₂
    · have e1 : ¬ x.toNat < y.toNat := by omega
      have e2 : ¬ y.toNat < x.toNat := by omega
      simp only [e1, e2, if_false] at h₁ h₂
      have hc : x = y := Char.eq_of_val_eq (UInt32.toNat.inj hxy)
      subst hc
      exact congrArg (x :: ·) (charListLe_antisymm xs ys h₁ h₂)
    · have e1 : ¬ x.toNat < y.toNat := by omega
      simp [e1, hxy] at h₁

theorem strLe_total (a b : String) : strLe a b = true ∨ strLe b a = true :=
  charListLe_total a.data b.data

theorem strLe_trans {a b c : String} (h₁ : strLe a b = true)
    (h₂ : strLe b c = true) : strLe a c = true :=
  charListLe_trans a.data b.data c.data h₁ h₂

theorem strLe_antisymm {a b : String} (h₁ : strLe a b = true)
    (h₂ : strLe b a = true) : a = b := by
  cases a; cases b
  exact congrArg String.mk (charListLe_antisymm _ _ h₁ h₂)

/-- Key order used by json.dumps(..., sort_keys=True): compare keys. -/
def keyLe (a b : String × SVal) : Prop := strLe a.1 b.1 = true

instance : DecidableRel keyLe :=
  fun a b => inferInstanceAs (Decidable (strLe a.1 b.1 = true))

instance : IsTotal (String × SVal) keyLe :=
  ⟨fun a b => strLe_total a.1 b.1⟩

instance : IsTrans (String × SVal) keyLe :=
  ⟨fun _ _ _ h₁ h₂ => strLe_trans h₁ h₂⟩

/-- Canonical key-sorted form of a style object (sort_keys=True). -/
def sortKeys (s : StyleObj) : StyleObj :=
  List.insertionSort keyLe s

/-- style_hash (clean_node.py lines 13-18): serialize the style object with
keys sorted and digest the resulting string.  The md5 hexdigest is an
arbitrary deterministic function of that string, passed as a parameter. -/
def style_hash (md5 : String → String) (style_data : StyleObj) : String :=
  md5 (dumpStyle (sortKeys style_data))

/-- figma_align_to_flex (clean_node.py lines 20-30): align_map.get with
default "flex-start". -/
def figma_align_to_flex (figma_val : String) : String :=
  if figma_val = "MIN" then "flex-start"
  else if figma_val = "CENTER" then "center"
  else if figma_val = "MAX" then "flex-end"
  else if figma_val = "SPACE_BETWEEN" then "space-between"
  else "flex-start"

/-- Python dict assignment d[k] = v: replace the value in place if the key
is present, otherwise append the new binding at the end. -/
def setKey : StyleObj → String → SVal → StyleObj
  | [], k, v => [(k, v)]
  | kv :: rest, k, v =>
      if kv.1 = k then (k, v) :: rest else kv :: setKey rest k v

/-- The registration step shared verbatim by all three extractors
(clean_node.py lines 51-58, 128-135, 188-194): compute the content hash,
insert the style under it if absent, and return the id. -/
def registerStyle (md5 : String → String) (style_data : StyleObj)
    (styles : Styles) : String × Styles :=
  let style_id := style_hash md5 style_data
  if (styles.lookup style_id).isSome then (style_id, styles)
  else (style_id, styles ++ [(style_id, style_data)])

/-- Python truthiness of an optional string (None and "" are falsy). -/
def truthyOptStr : Option String → Bool
  | none => false
  | some s => !(s = "")

/-- get_fill_style_id (clean_node.py lines 32-60).  The first argument is
raw_node.get("fills", []); a missing fills key arrives as []. -/
def get_fill_style_id (md5 : String → String) (fills : List Fill)
    (styles : Styles) : Except PyErr (Option String × Styles) :=
  match fills with
  | [] => .ok (none, styles)
  | fill :: _ =>
    if (fill.visible.getD true) = false then .ok (none, styles)
    else do
      let ty ← getKey fill.type_ "type"
      if ty = "SOLID" then do
        let color ← getKey fill.color "color"
        let opacity := fill.opacity.getD jnum1
        let style_data : StyleObj :=
          [("backgroundColor", .str (rgba_to_hex color)),
           ("opacity", .num opacity)]
        let r := registerStyle md5 style_data styles
        .ok (some r.1, r.2)
      else .ok (none, styles)

/-- The HORIZONTAL / VERTICAL flex block (clean_node.py lines 72-77). -/
def flexBlock (layout_mode : String) (ls : StyleObj) : StyleObj :=
  if layout_mode = "HORIZONTAL" then
    setKey (setKey ls "display" (.str "flex")) "flexDirection" (.str "row")
  else if layout_mode = "VERTICAL" then
    setKey (setKey ls "display" (.str "flex")) "flexDirection" (.str "column")
  else ls

/-- The padding block (clean_node.py lines 80-87). -/
def paddingBlock (raw : RawFields) (ls : StyleObj) : StyleObj :=
  let ls := match raw.paddingLeft with
    | some p => setKey ls "paddingLeft" (.str (p.txt ++ "px"))
    | none => ls
  let ls := match raw.paddingRight with
    | some p => setKey ls "paddingRight" (.str (p.txt ++ "px"))
    | none => ls
  let ls := match raw.paddingTop with
    | some p => setKey ls "paddingTop" (.str (p.txt ++ "px"))
    | none => ls
  match raw.paddingBottom with
    | some p => setKey ls "paddingBottom" (.str (p.txt ++ "px"))
    | none => ls

/-- The itemSpacing block (clean_node.py lines 90-91). -/
def spacingBlock (raw : RawFields) (ls : StyleObj) : StyleObj :=
  match raw.itemSpacing with
  | some n => setKey ls "gap" (.str (n.txt ++ "px"))
  | none => ls

/-- The alignment block (clean_node.py lines 94-109).  The two inner
helpers align_map_primary and align_map_counter both call
figma_align_to_flex in every branch, so they are inlined here. -/
def alignBlock (raw : RawFields) (ls : StyleObj) : StyleObj :=
  match raw.primaryAxisAlignItems with
  | some primary_align =>
      let counter_align := raw.counterAxisAlignItems.getD "MIN"
      setKey
        (setKey ls "justifyContent" (.str (figma_align_to_flex primary_align)))
        "alignItems" (.str (figma_align_to_flex counter_align))
  | none => ls

/-- The size block (clean_node.py lines 112-115). -/
def sizeBlock (raw : RawFields) (ls : StyleObj) : StyleObj :=
  match raw.absoluteBoundingBox with
  | some bbox =>
      setKey (setKey ls "width" (.str (bbox.width.txt ++ "px")))
        "height" (.str (bbox.height.txt ++ "px"))
  | none => ls

/-- get_border_radius (clean_node.py lines 139-145). -/
def get_border_radius (raw : RawFields) : Option String :=
  match raw.cornerRadius with
  | some n => some (n.txt ++ "px")
  | none => none

/-- get_corner_smoothing (clean_node.py lines 147-153). -/
def get_corner_smoothing (raw : RawFields) : Option String :=
  match raw.cornerSmoothing with
  | some n => if 0 < n.val then some (n.txt ++ "px") else none
  | none => none

/-- One guarded borderRadius assignment: Python
if value: layout_style["borderRadius"] = value
(None and the empty string are falsy). -/
def setBorderRadius (o : Option String) (ls : StyleObj) : StyleObj :=
  match o with
  | some s => if s = "" then ls else setKey ls "borderRadius" (.str s)
  | none => ls

/-- The border-radius block (clean_node.py lines 118-125): tentatively set
borderRadius from get_border_radius, then overwrite it from
get_corner_smoothing; each step is guarded by Python string truthiness. -/
def radiusBlock (raw : RawFields) (ls : StyleObj) : StyleObj :=
  setBorderRadius (get_corner_smoothing raw)
    (setBorderRadius (get_border_radius raw) ls)

/-- The layout style object built by get_layout_style_id (clean_node.py
lines 66-125) before registration.  The padding / spacing / alignment
blocks run only inside the branch where the layoutMode key is present. -/
def build_layout_style (raw : RawFields) : StyleObj :=
  let layout_style : StyleObj := []
  let layout_style := match raw.layoutMode with
    | some layout_mode =>
        alignBlock raw (spacingBlock raw (paddingBlock raw
          (flexBlock layout_mode layout_style)))
    | none => layout_style
  radiusBlock raw (sizeBlock raw layout_style)

/-- get_layout_style_id (clean_node.py lines 62-137): build the layout
style object and, if it is non-empty (Python dict truthiness), register it
and return its id.  Only scalar fields of the raw node are read. -/
def get_layout_style_id (md5 : String → String) (raw : RawFields)
    (styles : Styles) : Option String × Styles :=
  let layout_style := build_layout_style raw
  if layout_style = [] then (none, styles)
  else
    let r := registerStyle md5 layout_style styles
    (some r.1, r.2)

/-- textAlignHorizontal mapping (clean_node.py line 177-178): align_map.get
with default "left". -/
def textAlignMap (v : String) : String :=
  if v = "LEFT" then "left"
  else if v = "CENTER" then "center"
  else if v = "RIGHT" then "right"
  else if v = "JUSTIFIED" then "justify"
  else "left"

/-- The font/spacing/align part of the text style (clean_node.py lines
162-178). -/
def textFieldsBlock (node_style : NodeStyle) : StyleObj :=
  let ts : StyleObj := []
  let ts := match node_style.fontFamily with
    | some v => setKey ts "fontFamily" (.str v)
    | none => ts
  let ts := match node_style.fontWeight with
    | some v => setKey ts "fontWeight" (.num v)
    | none => ts
  let ts := match node_style.fontSize with
    | some v => setKey ts "fontSize" (.str (v.txt ++ "px"))
    | none => ts
  let ts := match node_style.lineHeightPx with
    | some v => setKey ts "lineHeight" (.str (v.txt ++ "px"))
    | none => ts
  let ts := match node_style.letterSpacing with
    | some v => setKey ts "letterSpacing" (.str (v.txt ++ "px"))
    | none => ts
  match node_style.textAlignHorizontal with
  | some v => setKey ts "textAlign" (.str (textAlignMap v))
  | none => ts

/-- The text fill-color step (clean_node.py lines 180-184): when the node
has a non-empty fills sequence whose first element declares type SOLID,
set color from that fill regardless of its visible flag. -/
def textColorBlock (raw : RawFields) (ts : StyleObj) :
    Except PyErr StyleObj :=
  match raw.fills with
  | some (fill :: _) => do
      let ty ← getKey fill.type_ "type"
      if ty = "SOLID" then do
        let color ← getKey fill.color "color"
        .ok (setKey ts "color" (.str (rgba_to_hex color)))
      else .ok ts
  | some [] => .ok ts
  | none => .ok ts

/-- The text style object built by get_text_style_id (clean_node.py lines
162-184) for a TEXT node carrying a style sub-record. -/
def build_text_style (node_style : NodeStyle) (raw : RawFields) :
    Except PyErr StyleObj :=
  textColorBlock raw (textFieldsBlock node_style)

/-- get_text_style_id (clean_node.py lines 155-196).  Only scalar fields
of the raw node are read. -/
def get_text_style_id (md5 : String → String) (raw : RawFields)
    (styles : Styles) : Except PyErr (Option String × Styles) := do
  let ty ← getKey raw.type_ "type"
  if ty ≠ "TEXT" then .ok (none, styles)
  else
    match raw.style with
    | none => .ok (none, styles)
    | some node_style => do
      let text_style ← build_text_style node_style raw
      if text_style = [] then .ok (none, styles)
      else
        let r := registerStyle md5 text_style styles
        .ok (some r.1, r.2)

/-- The image-reference loop of transform_node (clean_node.py lines
231-233): walk every fill in order and assign imageRef for each fill whose
declared type is IMAGE and which carries an imageRef key; there is no
break, so each match overwrites the previous one. -/
def imageRefLoop : List Fill → Option String → Except PyErr (Option String)
  | [], acc => .ok acc
  | fill :: rest, acc => do
    let ty ← getKey fill.type_ "type"
    if ty = "IMAGE" ∧ fill.imageRef.isSome then imageRefLoop rest fill.imageRef
    else imageRefLoop rest acc

mutual

/-- transform_node (clean_node.py lines 198-270): build the simplified
node, invoking the three style extractors, the text/image content rules,
the child-pruning recursion, and the verbatim component-field copies.
The dict mutations on node are assembled as one record at the end; the
effectful steps run in source order so that errors propagate exactly as
Python raises them. -/
def transform_node (md5 : String → String) :
    RawNode → Styles → Except PyErr (SimpNode × Styles)
  | .mk rf kids, styles => do
    let node_type ← getKey rf.type_ "type"
    let idv ← getKey rf.id "id"
    let namev ← getKey rf.name "name"
    let visible := rf.visible.getD true
    let r₁ ← get_fill_style_id md5 (rf.fills.getD []) styles
    let r₂ := get_layout_style_id md5 rf r₁.2
    let r₃ ← get_text_style_id md5 rf r₂.2
    let characters := if node_type = "TEXT" then rf.characters else none
    let imageRef ←
      if node_type = "RECTANGLE" ∧ rf.fills.isSome then
        imageRefLoop (rf.fills.getD []) none
      else .ok none
    let base : SimpFields :=
      { id := idv
        name := namev
        type_ := node_type
        visible := visible
        fillStyleId := if truthyOptStr r₁.1 then r₁.1 else none
        layoutStyleId := if truthyOptStr r₂.1 then r₂.1 else none
        textStyleId := if truthyOptStr r₃.1 then r₃.1 else none
        characters := characters
        imageRef := imageRef
        componentPropertyReferences := rf.componentPropertyReferences
        componentProperties := rf.componentProperties
        componentPropertyDefinitions := rf.componentPropertyDefinitions
        variantProperties := rf.variantProperties
        componentSetId := rf.componentSetId
        componentId := rf.componentId }
    match kids with
    | none => .ok (.mk base none, r₃.2)
    | some children => do
      let rc ← transformChildren md5 children r₃.2
      .ok (.mk base (some rc.1), rc.2)

/-- The children loop of transform_node (clean_node.py lines 236-244):
skip a child whose visible is explicitly false, otherwise transform it and
append. -/
def transformChildren (md5 : String → String) :
    List RawNode → Styles → Except PyErr (List SimpNode × Styles)
  | [], styles => .ok ([], styles)
  | child :: rest, styles =>
    if (child.fields.visible.getD true) = false then
      transformChildren md5 rest styles
    else do
      let rc ← transform_node md5 child styles
      let rcs ← transformChildren md5 rest rc.2
      .ok (rc.1 :: rcs.1, rcs.2)

end

/-- Sequential transformation of a list of children with no visibility
skipping: the reference against which the pruning loop is compared. -/
def transformChildrenAll (md5 : String → String) :
    List RawNode → Styles → Except PyErr (List SimpNode × Styles)
  | [], styles => .ok ([], styles)
  | child :: rest, styles => do
      let rc ← transform_node md5 child styles
      let rcs ← transformChildrenAll md5 rest rc.2
      .ok (rc.1 :: rcs.1, rcs.2)

/-- On nonnegative rationals, Python int() truncation agrees with floor. -/
theorem pyInt_eq_floor {q : ℚ} (h : 0 ≤ q) : pyInt q = ⌊q⌋ := by
  rw [pyInt, Rat.floor_def]
  exact Int.tdiv_eq_ediv (Rat.num_nonneg.mpr h) (Int.ofNat_nonneg _)

/-- A string ending in "px" is never empty. -/
theorem append_px_ne_empty (a : String) : a ++ "px" ≠ "" := by
  intro h
  have hl := congrArg String.length h
  rw [String.length_append] at hl
  have h2 : "px".length = 2 := rfl
  have h0 : ("" : String).length = 0 := rfl
  omega

/-- Looking up the key just assigned by setKey yields the new value. -/
theorem lookup_setKey_self (s : StyleObj) (k : String) (v : SVal) :
    (setKey s k v).lookup k = some v := by
  induction s with
  | nil => simp [setKey, List.lookup]
  | cons kv rest ih =>
    by_cases h : kv.1 = k
    · simp [setKey, h, List.lookup]
    · have hne : (k == kv.1) = false := beq_eq_false_iff_ne.mpr (Ne.symm h)
      simp [setKey, h, List.lookup, hne, ih]

/-- setKey leaves every other key's binding unchanged. -/
theorem lookup_setKey_ne (s : StyleObj) {k k' : String} (v : SVal)
    (h : k' ≠ k) : (setKey s k v).lookup k' = s.lookup k' := by
  have hne : (k' == k) = false := beq_eq_false_iff_ne.mpr h
  induction s with
  | nil => simp [setKey, List.lookup, hne]
  | cons kv rest ih =>
    by_cases hk : kv.1 = k
    · subst hk
      simp [setKey, List.lookup, hne]
    · simp [setKey, hk, List.lookup, ih]

/-- A setKey result is never the empty dict. -/
theorem setKey_ne_nil (s : StyleObj) (k : String) (v : SVal) :
    setKey s k v ≠ [] := by
  cases s with
  | nil => simp [setKey]
  | cons kv rest =>
    by_cases h : kv.1 = k <;> simp [setKey, h]

/-- Appending a binding for k makes k present. -/
theorem lookup_append_singleton (l : Styles) (k : String) (v : StyleObj) :
    ((l ++ [(k, v)]).lookup k).isSome := by
  induction l with
  | nil => simp [List.lookup]
  | cons kv rest ih =>
    simp only [List.cons_append, List.lookup]
    cases h : (k == kv.1) with
    | true => simp
    | false => exact ih

/-- After registerStyle, the registry always binds the returned id. -/
theorem registerStyle_mem (md5 : String → String) (sd : StyleObj)
    (styles : Styles) :
    (((registerStyle md5 sd styles).2).lookup
      (registerStyle md5 sd styles).1).isSome := by
  cases h : (styles.lookup (style_hash md5 sd)).isSome with
  | true => simp [registerStyle, h]
  | false => simp [registerStyle, h, lookup_append_singleton]

/-- Registering into a registry that already binds the style's id leaves
the registry unchanged. -/
theorem registerStyle_of_mem (md5 : String → String) (sd : StyleObj)
    (styles : Styles) (h : (styles.lookup (style_hash md5 sd)).isSome) :
    registerStyle md5 sd styles = (style_hash md5 sd, styles) := by
  unfold registerStyle
  simp [h]

/-- flexBlock touches only the display and flexDirection keys. -/
theorem lookup_flexBlock_ne (lm : String) (ls : StyleObj) {k : String}
    (h₁ : k ≠ "display") (h₂ : k ≠ "flexDirection") :
    (flexBlock lm ls).lookup k = ls.lookup k := by
  unfold flexBlock
  by_cases hH : lm = "HORIZONTAL"
  · simp [hH, lookup_setKey_ne _ _ h₂, lookup_setKey_ne _ _ h₁]
  · by_cases hV : lm = "VERTICAL"
    · simp [hH, hV, lookup_setKey_ne _ _ h₂, lookup_setKey_ne _ _ h₁]
    · simp [hH, hV]

/-- paddingBlock touches only the four padding keys. -/
theorem lookup_paddingBlock_ne (raw : RawFields) (ls : StyleObj) {k : String}
    (h₁ : k ≠ "paddingLeft") (h₂ : k ≠ "paddingRight")
    (h₃ : k ≠ "paddingTop") (h₄ : k ≠ "paddingBottom") :
    (paddingBlock raw ls).lookup k = ls.lookup k := by
  unfold paddingBlock
  cases raw.paddingLeft <;> cases raw.paddingRight <;>
    cases raw.paddingTop <;> cases raw.paddingBottom <;>
    simp [lookup_setKey_ne _ _ h₁, lookup_setKey_ne _ _ h₂,
      lookup_setKey_ne _ _ h₃, lookup_setKey_ne _ _ h₄]

/-- spacingBlock touches only the gap key. -/
theorem lookup_spacingBlock_ne (raw : RawFields) (ls : StyleObj) {k : String}
    (h : k ≠ "gap") : (spacingBlock raw ls).lookup k = ls.lookup k := by
  unfold spacingBlock
  cases raw.itemSpacing <;> simp [lookup_setKey_ne _ _ h]

/-- alignBlock touches only justifyContent and alignItems. -/
theorem lookup_alignBlock_ne (raw : RawFields) (ls : StyleObj) {k : String}
    (h₁ : k ≠ "justifyContent") (h₂ : k ≠ "alignItems") :
    (alignBlock raw ls).lookup k = ls.lookup k := by
  unfold alignBlock
  cases raw.primaryAxisAlignItems <;>
    simp [lookup_setKey_ne _ _ h₁, lookup_setKey_ne _ _ h₂]

/-- When primaryAxisAlignItems is present, alignBlock sets alignItems from
the counter axis value with default "MIN". -/
theorem lookup_alignBlock_alignItems (raw : RawFields) (ls : StyleObj)
    {p : String} (h : raw.primaryAxisAlignItems = some p) :
    (alignBlock raw ls).lookup "alignItems" =
      some (.str (figma_align_to_flex (raw.counterAxisAlignItems.getD "MIN"))) := by
  unfold alignBlock
  rw [h]
  simp [lookup_setKey_self]

/-- When primaryAxisAlignItems is present, alignBlock sets justifyContent
from the primary axis value. -/
theorem lookup_alignBlock_justify (raw : RawFields) (ls : StyleObj)
    {p : String} (h : raw.primaryAxisAlignItems = some p) :
    (alignBlock raw ls).lookup "justifyContent" =
      some (.str (figma_align_to_flex p)) := by
  unfold alignBlock
  rw [h]
  simp [lookup_setKey_ne _ _ (by decide : ("justifyContent" : String) ≠ "alignItems"),
    lookup_setKey_self]

/-- sizeBlock touches only width and height. -/
theorem lookup_sizeBlock_ne (raw : RawFields) (ls : StyleObj) {k : String}
    (h₁ : k ≠ "width") (h₂ : k ≠ "height") :
    (sizeBlock raw ls).lookup k = ls.lookup k := by
  unfold sizeBlock
  cases raw.absoluteBoundingBox <;>
    simp [lookup_setKey_ne _ _ h₁, lookup_setKey_ne _ _ h₂]

/-- When absoluteBoundingBox is present, sizeBlock sets width. -/
theorem lookup_sizeBlock_width (raw : RawFields) (ls : StyleObj)
    {bbox : BBox} (h : raw.absoluteBoundingBox = some bbox) :
    (sizeBlock raw ls).lookup "width" = some (.str (bbox.width.txt ++ "px")) := by
  unfold sizeBlock
  rw [h]
  simp [lookup_setKey_ne _ _ (by decide : ("width" : String) ≠ "height"),
    lookup_setKey_self]

/-- When absoluteBoundingBox is present, sizeBlock sets height. -/
theorem lookup_sizeBlock_height (raw : RawFields) (ls : StyleObj)
    {bbox : BBox} (h : raw.absoluteBoundingBox = some bbox) :
    (sizeBlock raw ls).lookup "height" = some (.str (bbox.height.txt ++ "px")) := by
  unfold sizeBlock
  rw [h]
  simp [lookup_setKey_self]

/-- A guarded borderRadius assignment touches no other key. -/
theorem lookup_setBorderRadius_ne (o : Option String) (ls : StyleObj)
    {k : String} (h : k ≠ "borderRadius") :
    (setBorderRadius o ls).lookup k = ls.lookup k := by
  cases o with
  | none => rfl
  | some s =>
    by_cases hs : s = ""
    · simp [setBorderRadius, hs]
    · simp [setBorderRadius, hs, lookup_setKey_ne _ _ h]

/-- radiusBlock touches only borderRadius. -/
theorem lookup_radiusBlock_ne (raw : RawFields) (ls : StyleObj) {k : String}
    (h : k ≠ "borderRadius") :
    (radiusBlock raw ls).lookup k = ls.lookup k := by
  unfold radiusBlock
  rw [lookup_setBorderRadius_ne _ _ h, lookup_setBorderRadius_ne _ _ h]

/-- When the smoothing guard passes (cornerSmoothing present and positive)
radiusBlock sets borderRadius to the smoothing text. -/
theorem lookup_radiusBlock_smoothing (raw : RawFields) (ls : StyleObj)
    {s : JNum} (h : raw.cornerSmoothing = some s) (hpos : 0 < s.val) :
    (radiusBlock raw ls).lookup "borderRadius" =
      some (.str (s.txt ++ "px")) := by
  unfold radiusBlock
  have hcs : get_corner_smoothing raw = some (s.txt ++ "px") := by
    simp [get_corner_smoothing, h, hpos]
  rw [hcs]
  simp [setBorderRadius, append_px_ne_empty, lookup_setKey_self]

/-- When cornerRadius is present and the smoothing guard fails,
radiusBlock sets borderRadius to the radius text. -/
theorem lookup_radiusBlock_radius (raw : RawFields) (ls : StyleObj)
    {r : JNum} (h : raw.cornerRadius = some r)
    (hcs : get_corner_smoothing raw = none) :
    (radiusBlock raw ls).lookup "borderRadius" =
      some (.str (r.txt ++ "px")) := by
  unfold radiusBlock
  have hbr : get_border_radius raw = some (r.txt ++ "px") := by
    simp [get_border_radius, h]
  rw [hcs, hbr]
  simp [setBorderRadius, append_px_ne_empty, lookup_setKey_self]

theorem getKey_some {α : Type} (v : α) (k : String) :
    getKey (some v) k = .ok v := rfl

theorem getKey_none {α : Type} (k : String) :
    getKey (none : Option α) k = .error (.keyError k) := rfl

theorem bindE_ok {α β : Type} (a : α) (f : α → Except PyErr β) :
    (Except.ok a >>= f) = f a := rfl

theorem bindE_err {α β : Type} (e : PyErr) (f : α → Except PyErr β) :
    ((Except.error e : Except PyErr α) >>= f) = .error e := rfl

/-- Inversion of a successful transform_node call: the base fields were
present, the imageRef field is the image-loop result for rectangles with
fills, and the children field of the output comes from transformChildren
exactly when the raw node had a children key. -/
theorem transform_node_ok_inv (md5 : String → String) (rf : RawFields)
    (kids : Option (List RawNode)) (styles : Styles) (node : SimpNode)
    (styles' : Styles)
    (h : transform_node md5 (.mk rf kids) styles = .ok (node, styles')) :
    ∃ ty iref midStyles,
      rf.type_ = some ty ∧
      node.fields.imageRef = iref ∧
      ((ty = "RECTANGLE" ∧ rf.fills.isSome = true) →
        imageRefLoop (rf.fills.getD []) none = .ok iref) ∧
      (¬(ty = "RECTANGLE" ∧ rf.fills.isSome = true) → iref = none) ∧
      (kids = none → node.children = none ∧ styles' = midStyles) ∧
      (∀ cs, kids = some cs → ∃ outs, node.children = some outs ∧
        transformChildren md5 cs midStyles = .ok (outs, styles')) := by
  rw [transform_node] at h
  cases hty : rf.type_ with
  | none => simp only [hty, getKey_none, bindE_err] at h; exact Except.noConfusion h
  | some ty =>
    simp only [hty, getKey_some, bindE_ok] at h
    cases hid : rf.id with
    | none => simp only [hid, getKey_none, bindE_err] at h; exact Except.noConfusion h
    | some idv =>
      simp only [hid, getKey_some, bindE_ok] at h
      cases hnm : rf.name with
      | none => simp only [hnm, getKey_none, bindE_err] at h; exact Except.noConfusion h
      | some nm =>
        simp only [hnm, getKey_some, bindE_ok] at h
        cases hfill : get_fill_style_id md5 (rf.fills.getD []) styles with
        | error e => simp only [hfill, bindE_err] at h; exact Except.noConfusion h
        | ok p1 =>
          simp only [hfill, bindE_ok] at h
          cases htxt : get_text_style_id md5 rf (get_layout_style_id md5 rf p1.2).2 with
          | error e => simp only [htxt, bindE_err] at h; exact Except.noConfusion h
          | ok p3 =>
            simp only [htxt, bindE_ok] at h
            by_cases hcond : (ty = "RECTANGLE" ∧ rf.fills.isSome = true)
            · rw [if_pos hcond] at h
              cases hImg : imageRefLoop (rf.fills.getD []) none with
              | error e => simp only [hImg, bindE_err] at h; exact Except.noConfusion h
              | ok iref =>
                simp only [hImg, bindE_ok] at h
                cases kids with
                | none =>
                  simp only [Except.ok.injEq, Prod.mk.injEq] at h
                  obtain ⟨hn, hs⟩ := h
                  refine ⟨ty, iref, p3.2, rfl, ?_, fun _ => rfl,
                    fun hc => absurd hcond hc, fun _ => ⟨?_, hs.symm⟩, ?_⟩
                  · rw [← hn]; rfl
                  · rw [← hn]; rfl
                  · intro cs hcs; exact Option.noConfusion hcs
                | some cs =>
                  cases hch : transformChildren md5 cs p3.2 with
                  | error e =>
                    simp only [hch, bindE_err] at h; exact Except.noConfusion h
                  | ok pc =>
                    simp only [hch, bindE_ok] at h
                    simp only [Except.ok.injEq, Prod.mk.injEq] at h
                    obtain ⟨hn, hs⟩ := h
                    refine ⟨ty, iref, p3.2, rfl, ?_, fun _ => rfl,
                      fun hc => absurd hcond hc, ?_, ?_⟩
                    · rw [← hn]; rfl
                    · intro hk; exact Option.noConfusion hk
                    · intro cs' hcs'
                      injection hcs' with hcc
                      subst hcc
                      refine ⟨pc.1, ?_, ?_⟩
                      · rw [← hn]; rfl
                      · rw [hch, ← hs]
            · rw [if_neg hcond] at h
              cases kids with
              | none =>
                simp only [Except.ok.injEq, Prod.mk.injEq] at h
                obtain ⟨hn, hs⟩ := h
                refine ⟨ty, none, p3.2, rfl, ?_, fun hc => absurd hc hcond,
                  fun _ => rfl, fun _ => ⟨?_, hs.symm⟩, ?_⟩
                · rw [← hn]; rfl
                · rw [← hn]; rfl
                · intro cs hcs; exact Option.noConfusion hcs
              | some cs =>
                cases hch : transformChildren md5 cs p3.2 with
                | error e =>
                  simp only [hch, bindE_err] at h; exact Except.noConfusion h
                | ok pc =>
                  simp only [hch, bindE_ok] at h
                  simp only [Except.ok.injEq, Prod.mk.injEq] at h
                  obtain ⟨hn, hs⟩ := h
                  refine ⟨ty, none, p3.2, rfl, ?_, fun hc => absurd hc hcond,
                    fun _ => rfl, ?_, ?_⟩
                  · rw [← hn]; rfl
                  · intro hk; exact Option.noConfusion hk
                  · intro cs' hcs'
                    injection hcs' with hcc
                    subst hcc
                    refine ⟨pc.1, ?_, ?_⟩
                    · rw [← hn]; rfl
                    · rw [hch, ← hs]

/-- The predicate of the image-reference loop: type declared IMAGE and an
imageRef key present. -/
def imageFillP (f : Fill) : Bool :=
  f.type_ == some "IMAGE" && f.imageRef.isSome

/-- A successful image-reference loop returns the imageRef of the LAST
matching fill (each match overwrites), or the accumulator when none
match. -/
theorem imageRefLoop_ok_spec : ∀ (fills : List Fill) (acc v : Option String),
    imageRefLoop fills acc = .ok v →
    v = (match (fills.filter imageFillP).getLast? with
         | some f => f.imageRef
         | none => acc)
  | [], acc, v, h => by
    simp only [imageRefLoop, Except.ok.injEq] at h
    simp [h]
  | fill :: rest, acc, v, h => by
    cases hty : fill.type_ with
    | none =>
      simp only [imageRefLoop, hty, getKey_none, bindE_err] at h
      exact Except.noConfusion h
    | some t =>
      simp only [imageRefLoop, hty, getKey_some, bindE_ok] at h
      by_cases hc : (t = "IMAGE" ∧ fill.imageRef.isSome = true)
      · rw [if_pos hc] at h
        have ih := imageRefLoop_ok_spec rest fill.imageRef v h
        have hp : imageFillP fill = true := by
          simp [imageFillP, hty, hc.1, hc.2]
        rw [List.filter_cons_of_pos hp]
        cases hf : rest.filter imageFillP with
        | nil =>
          rw [hf] at ih
          simpa using ih
        | cons a l =>
          rw [hf] at ih
          rw [List.getLast?_cons_cons]
          exact ih
      · rw [if_neg hc] at h
        have ih := imageRefLoop_ok_spec rest acc v h
        have hp : ¬ (imageFillP fill = true) := by
          simp only [imageFillP, hty]
          intro hand
          rw [Bool.and_eq_true] at hand
          apply hc
          constructor
          · have := hand.1
            simpa using this
          · exact hand.2
        rw [List.filter_cons_of_neg hp]
        exact ih

/-- The children loop equals the unfiltered sequential transform of the
children that survive the visibility filter: invisible children (and with
them their entire subtrees, which are never visited) are omitted, the
others are transformed in order. -/
theorem transformChildren_eq_filter (md5 : String → String) :
    ∀ (cs : List RawNode) (styles : Styles),
    transformChildren md5 cs styles =
      transformChildrenAll md5
        (cs.filter fun c => c.fields.visible.getD true) styles
  | [], _ => rfl
  | c :: rest, styles => by
    by_cases hv : c.fields.visible.getD true = false
    · rw [List.filter_cons_of_neg (by simp [hv])]
      simp only [transformChildren, if_pos hv]
      exact transformChildren_eq_filter md5 rest styles
    · rw [List.filter_cons_of_pos (by simpa using hv)]
      simp only [transformChildren, if_neg hv, transformChildrenAll]
      cases hrc : transform_node md5 c styles with
      | error e => rw [bindE_err, bindE_err]
      | ok p =>
        rw [bindE_ok, bindE_ok]
        rw [transformChildren_eq_filter md5 rest p.2]

/-- Occurrence of a node inside a simplified output tree (reflexive,
through children lists). -/
inductive SOccurs : SimpNode → SimpNode → Prop where
  | refl (n : SimpNode) : SOccurs n n
  | child {m c : SimpNode} {f : SimpFields} {l : List SimpNode} :
      c ∈ l → SOccurs m c → SOccurs m (.mk f (some l))

/-- Reachability in the raw tree through children whose visible flag is
not explicitly false. -/
inductive VisReach : RawNode → RawNode → Prop where
  | refl (n : RawNode) : VisReach n n
  | child {c d : RawNode} {f : RawFields} {l : List RawNode} :
      c ∈ l → ¬ (c.fields.visible.getD true = false) → VisReach c d →
      VisReach (.mk f (some l)) d

/-- Every node of a successful children loop output is the transform of
some listed child that passed the visibility test. -/
theorem transformChildren_mem (md5 : String → String) :
    ∀ (cs : List RawNode) (styles : Styles) (outs : List SimpNode)
      (styles' : Styles),
      transformChildren md5 cs styles = .ok (outs, styles') →
      ∀ m ∈ outs, ∃ c s₁ s₂, c ∈ cs ∧ ¬ (c.fields.visible.getD true = false) ∧
        transform_node md5 c s₁ = .ok (m, s₂)
  | [], styles, outs, styles', h => by
    simp only [transformChildren, Except.ok.injEq, Prod.mk.injEq] at h
    intro m hm
    rw [← h.1] at hm
    exact absurd hm (List.not_mem_nil m)
  | c :: rest, styles, outs, styles', h => by
    by_cases hv : c.fields.visible.getD true = false
    · simp only [transformChildren, if_pos hv] at h
      intro m hm
      obtain ⟨c', s₁, s₂, hmem, hvis, ht⟩ :=
        transformChildren_mem md5 rest styles outs styles' h m hm
      exact ⟨c', s₁, s₂, List.mem_cons_of_mem _ hmem, hvis, ht⟩
    · simp only [transformChildren, if_neg hv] at h
      cases hrc : transform_node md5 c styles with
      | error e =>
        rw [hrc, bindE_err] at h
        exact absurd h (by simp)
      | ok p =>
        rw [hrc, bindE_ok] at h
        cases hrest : transformChildren md5 rest p.2 with
        | error e =>
          rw [hrest, bindE_err] at h
          exact absurd h (by simp)
        | ok q =>
          rw [hrest, bindE_ok] at h
          simp only [Except.ok.injEq, Prod.mk.injEq] at h
          intro m hm
          rw [← h.1] at hm
          cases hm with
          | head =>
            exact ⟨c, styles, p.2, List.mem_cons_self c rest, hv, by rw [hrc]⟩
          | tail _ hm' =>
            obtain ⟨c', s₁, s₂, hmem, hvis, ht⟩ :=
              transformChildren_mem md5 rest p.2 q.1 q.2 (by rw [hrest]) m hm'
            exact ⟨c', s₁, s₂, List.mem_cons_of_mem _ hmem, hvis, ht⟩

/-- Every subtree of a successful transform output is the transform of a
raw node reachable from the root through visible children only: nothing
under an invisible child ever appears in the output. -/
theorem transform_occurs (md5 : String → String)
    (raw : RawNode) (styles : Styles) (node : SimpNode) (styles' : Styles)
    (h : transform_node md5 raw styles = .ok (node, styles'))
    (m : SimpNode) (hm : SOccurs m node) :
    ∃ d s₁ s₂, VisReach raw d ∧ transform_node md5 d s₁ = .ok (m, s₂) := by
  induction hm generalizing raw styles styles' with
  | refl => exact ⟨raw, styles, styles', .refl raw, h⟩
  | child hc hocc ih =>
    obtain ⟨rf, kids⟩ := raw
    obtain ⟨ty, iref, mid, _, _, _, _, hnone, hsome⟩ :=
      transform_node_ok_inv md5 rf kids styles _ styles' h
    cases kids with
    | none =>
      obtain ⟨hch, _⟩ := hnone rfl
      exact Option.noConfusion hch
    | some cs =>
      obtain ⟨outs, houts, hch⟩ := hsome cs rfl
      have hl := Option.some.inj houts
      obtain ⟨rc, s₁, s₂, hrc_mem, hrc_vis, hrc⟩ :=
        transformChildren_mem md5 cs mid outs styles' hch _ (hl ▸ hc)
      obtain ⟨d, t₁, t₂, hreach, htr⟩ := ih rc s₁ s₂ hrc
      exact ⟨d, t₁, t₂, .child hrc_mem hrc_vis hreach, htr⟩

/-- Shape of a successful corner-smoothing extraction. -/
theorem get_corner_smoothing_shape (raw : RawFields) {t : String}
    (h : get_corner_smoothing raw = some t) :
    ∃ s, raw.cornerSmoothing = some s ∧ 0 < s.val ∧ t = s.txt ++ "px" := by
  cases hcs : raw.cornerSmoothing with
  | none => simp [get_corner_smoothing, hcs] at h
  | some s =>
    simp only [get_corner_smoothing, hcs] at h
    by_cases hp : 0 < s.val
    · rw [if_pos hp] at h
      injection h with ht
      exact ⟨s, rfl, hp, ht.symm⟩
    · rw [if_neg hp] at h
      exact Option.noConfusion h

/-- Two key-sorted association lists that are permutations of each other
and have no duplicate keys are equal. -/
theorem sorted_nodupkeys_perm_eq :
    ∀ (l₁ l₂ : StyleObj), l₁.Perm l₂ →
      List.Pairwise keyLe l₁ → List.Pairwise keyLe l₂ →
      (l₁.map Prod.fst).Nodup → l₁ = l₂
  | [], l₂, hp, _, _, _ => (hp.symm.eq_nil).symm
  | a :: t₁, [], hp, _, _, _ => absurd hp.eq_nil (by simp)
  | a :: t₁, b :: t₂, hp, hs₁, hs₂, hnd => by
    by_cases hab : a = b
    · subst hab
      have ht := hp.cons_inv
      rw [List.map_cons] at hnd
      have := sorted_nodupkeys_perm_eq t₁ t₂ ht
        (List.pairwise_cons.mp hs₁).2 (List.pairwise_cons.mp hs₂).2
        (List.nodup_cons.mp hnd).2
      rw [this]
    · exfalso
      have hbmem : b ∈ a :: t₁ := hp.symm.subset (List.mem_cons_self b t₂)
      have hbt₁ : b ∈ t₁ := by
        cases hbmem with
        | head => exact absurd rfl (fun hh => hab hh.symm)
        | tail _ hbt => exact hbt
      have hamem : a ∈ b :: t₂ := hp.subset (List.mem_cons_self a t₁)
      have hat₂ : a ∈ t₂ := by
        cases hamem with
        | head => exact absurd rfl hab
        | tail _ hat => exact hat
      have h₁ : keyLe a b := (List.pairwise_cons.mp hs₁).1 b hbt₁
      have h₂ : keyLe b a := (List.pairwise_cons.mp hs₂).1 a hat₂
      have hkey : a.1 = b.1 := strLe_antisymm h₁ h₂
      have : a.1 ∈ t₁.map Prod.fst := by
        rw [hkey]
        exact List.mem_map_of_mem Prod.fst hbt₁
      rw [List.map_cons] at hnd
      exact (List.nodup_cons.mp hnd).1 this

/-- Structurally equal style objects (same bindings, any construction
order, no duplicate keys) canonicalize to the same sorted list. -/
theorem sortKeys_perm_eq (s₁ s₂ : StyleObj) (hp : s₁.Perm s₂)
    (hnd : (s₁.map Prod.fst).Nodup) : sortKeys s₁ = sortKeys s₂ := by
  apply sorted_nodupkeys_perm_eq
  · exact (List.perm_insertionSort keyLe s₁).trans
      (hp.trans (List.perm_insertionSort keyLe s₂).symm)
  · exact List.sorted_insertionSort keyLe s₁
  · exact List.sorted_insertionSort keyLe s₂
  · exact (((List.perm_insertionSort keyLe s₁).map Prod.fst).nodup_iff).mpr hnd

/-- An optional visible flag defaults to true; the skip test holds exactly
for an explicit false. -/
theorem visible_getD_false (o : Option Bool) :
    o.getD true = false ↔ o = some false := by
  cases o <;> simp

/-- The id returned by registerStyle is always the content hash. -/
theorem registerStyle_fst (md5 : String → String) (sd : StyleObj)
    (styles : Styles) : (registerStyle md5 sd styles).1 = style_hash md5 sd := by
  unfold registerStyle
  by_cases h : (styles.lookup (style_hash md5 sd)).isSome <;> simp [h]

/-- Per-channel conversion: on a unit-interval channel the Python int()
truncation is the floor of channel*255, and the result fits in one byte. -/
theorem channel_byte (q : ℚ) (h0 : 0 ≤ q) (h1 : q ≤ 1) :
    intHex02 (pyInt (mul255 q)) = natHexPad 2 (⌊q * 255⌋).toNat ∧
    (⌊q * 255⌋).toNat ≤ 255 := by
  have hnn : (0 : ℚ) ≤ q * 255 := by positivity
  have hfl : pyInt (mul255 q) = ⌊q * 255⌋ := by
    rw [mul255_eq]
    exact pyInt_eq_floor hnn
  have hfl0 : 0 ≤ ⌊q * 255⌋ := Int.floor_nonneg.mpr hnn
  constructor
  · rw [intHex02, hfl, if_neg (by omega)]
  · have hle : q * 255 ≤ 255 := by nlinarith
    have h255 : ⌊(255 : ℚ)⌋ = 255 := by norm_num
    have : ⌊q * 255⌋ ≤ 255 := by
      calc ⌊q * 255⌋ ≤ ⌊(255 : ℚ)⌋ := Int.floor_le_floor hle
        _ = 255 := h255
    omega

/-- C2 (counterexample): on the spec's own example color the code produces
"#ff8000", not the claimed "#ff7f00": 0.501961 × 255 = 128.000055, which
truncates to 128 = 0x80, not to 127. -/
theorem C2_counterexample :
    rgba_to_hex ⟨1, mkRat 501961 1000000, 0⟩ = "#ff8000" ∧
    rgba_to_hex ⟨1, mkRat 501961 1000000, 0⟩ ≠ "#ff7f00" :=
  ⟨by decide, by decide⟩

/-- C2 (amended): the hex conversion maps each unit-interval channel to an
8-bit value by truncation — floor of channel*255, never rounding — and
formats lowercase #rrggbb; but on {r:1.0, g:0.501961, b:0.0} this yields
"#ff8000" (128.000055 floors to 128), not "#ff7f00"; the floor is visible
at g = 0.5 instead, where 127.5 floors to 127 = 0x7f. -/
theorem C2_truncation (rgba : RGBA)
    (hr0 : 0 ≤ rgba.r) (hr1 : rgba.r ≤ 1)
    (hg0 : 0 ≤ rgba.g) (hg1 : rgba.g ≤ 1)
    (hb0 : 0 ≤ rgba.b) (hb1 : rgba.b ≤ 1) :
    rgba_to_hex rgba =
      "#" ++ natHexPad 2 (⌊rgba.r * 255⌋).toNat
          ++ natHexPad 2 (⌊rgba.g * 255⌋).toNat
          ++ natHexPad 2 (⌊rgba.b * 255⌋).toNat ∧
    (⌊rgba.r * 255⌋).toNat ≤ 255 ∧ (⌊rgba.g * 255⌋).toNat ≤ 255 ∧
    (⌊rgba.b * 255⌋).toNat ≤ 255 := by
  obtain ⟨er, br⟩ := channel_byte rgba.r hr0 hr1
  obtain ⟨eg, bg⟩ := channel_byte rgba.g hg0 hg1
  obtain ⟨eb, bb⟩ := channel_byte rgba.b hb0 hb1
  refine ⟨?_, br, bg, bb⟩
  rw [rgba_to_hex]
  rw [er, eg, eb]

/-- Witness for C2_truncation at the color {r:1, g:1/2, b:0}. -/
theorem C2_truncation_witness :
    rgba_to_hex ⟨1, 1/2, 0⟩ =
      "#" ++ natHexPad 2 (⌊(1 : ℚ) * 255⌋).toNat
          ++ natHexPad 2 (⌊(1/2 : ℚ) * 255⌋).toNat
          ++ natHexPad 2 (⌊(0 : ℚ) * 255⌋).toNat ∧
    (⌊(1 : ℚ) * 255⌋).toNat ≤ 255 ∧ (⌊(1/2 : ℚ) * 255⌋).toNat ≤ 255 ∧
    (⌊(0 : ℚ) * 255⌋).toNat ≤ 255 :=
  C2_truncation ⟨1, 1/2, 0⟩ (by norm_num) (by norm_num) (by norm_num)
    (by norm_num) (by norm_num) (by norm_num)

/-- C3: registering two structurally equal style objects (same bindings,
any construction order, no duplicate keys) yields the same id; starting
from an empty registry the result is exactly one entry binding that id to
the style object, and for any starting registry the second registration
never grows the table. -/
theorem C3_dedup_idempotent (md5 : String → String) (s₁ s₂ : StyleObj)
    (hp : s₁.Perm s₂) (hnd : (s₁.map Prod.fst).Nodup) :
    style_hash md5 s₁ = style_hash md5 s₂ ∧
    (registerStyle md5 s₂ (registerStyle md5 s₁ []).2).1
      = (registerStyle md5 s₁ []).1 ∧
    (registerStyle md5 s₂ (registerStyle md5 s₁ []).2).2
      = (registerStyle md5 s₁ []).2 ∧
    (registerStyle md5 s₁ []).2 = [((registerStyle md5 s₁ []).1, s₁)] ∧
    (∀ styles : Styles,
      (registerStyle md5 s₂ (registerStyle md5 s₁ styles).2).2
        = (registerStyle md5 s₁ styles).2) := by
  have hh : style_hash md5 s₁ = style_hash md5 s₂ := by
    unfold style_hash
    rw [sortKeys_perm_eq s₁ s₂ hp hnd]
  have hgen : ∀ styles : Styles,
      registerStyle md5 s₂ (registerStyle md5 s₁ styles).2
        = (style_hash md5 s₂, (registerStyle md5 s₁ styles).2) := by
    intro styles
    apply registerStyle_of_mem
    rw [← hh]
    have := registerStyle_mem md5 s₁ styles
    rwa [registerStyle_fst] at this
  have hreg1 : registerStyle md5 s₁ []
      = (style_hash md5 s₁, [(style_hash md5 s₁, s₁)]) := by
    unfold registerStyle
    simp [List.lookup]
  refine ⟨hh, ?_, ?_, ?_, fun styles => by rw [hgen styles]⟩
  · rw [hgen [], registerStyle_fst, ← hh]
  · rw [hgen []]
  · rw [hreg1]

/-- Style objects used by the C3 witness: the same two bindings in the two
possible construction orders. -/
def sC3a : StyleObj := [("display", .str "flex"), ("gap", .num ⟨8, "8"⟩)]

/-- Key-reversed version of sC3a. -/
def sC3b : StyleObj := [("gap", .num ⟨8, "8"⟩), ("display", .str "flex")]

/-- Witness for C3_dedup_idempotent on a concrete pair of style objects. -/
theorem C3_dedup_witness :
    style_hash (fun s => s) sC3a = style_hash (fun s => s) sC3b ∧
    (registerStyle (fun s => s) sC3b
        (registerStyle (fun s => s) sC3a []).2).1
      = (registerStyle (fun s => s) sC3a []).1 ∧
    (registerStyle (fun s => s) sC3b
        (registerStyle (fun s => s) sC3a []).2).2
      = (registerStyle (fun s => s) sC3a []).2 ∧
    (registerStyle (fun s => s) sC3a []).2
      = [((registerStyle (fun s => s) sC3a []).1, sC3a)] ∧
    (∀ styles : Styles,
      (registerStyle (fun s => s) sC3b
          (registerStyle (fun s => s) sC3a styles).2).2
        = (registerStyle (fun s => s) sC3a styles).2) :=
  C3_dedup_idempotent (fun s => s) sC3a sC3b (by decide) (by decide)

/-- C5: padding, spacing and alignment are processed only when the
layoutMode key is present — with layoutMode absent none of those keys can
appear in the layout style — while bounding-box size and border radius
are processed regardless of layoutMode. -/
theorem C5_layout_gating (raw : RawFields) :
    (raw.layoutMode = none →
      (build_layout_style raw).lookup "paddingLeft" = none ∧
      (build_layout_style raw).lookup "paddingRight" = none ∧
      (build_layout_style raw).lookup "paddingTop" = none ∧
      (build_layout_style raw).lookup "paddingBottom" = none ∧
      (build_layout_style raw).lookup "gap" = none ∧
      (build_layout_style raw).lookup "justifyContent" = none ∧
      (build_layout_style raw).lookup "alignItems" = none) ∧
    (∀ bbox : BBox, raw.absoluteBoundingBox = some bbox →
      (build_layout_style raw).lookup "width" =
        some (.str (bbox.width.txt ++ "px")) ∧
      (build_layout_style raw).lookup "height" =
        some (.str (bbox.height.txt ++ "px"))) ∧
    (raw.cornerRadius.isSome →
      ((build_layout_style raw).lookup "borderRadius").isSome) := by
  refine ⟨?_, ?_, ?_⟩
  · intro h
    have base : ∀ k : String, k ≠ "borderRadius" → k ≠ "width" → k ≠ "height" →
        (build_layout_style raw).lookup k = none := by
      intro k h1 h2 h3
      simp only [build_layout_style, h]
      rw [lookup_radiusBlock_ne _ _ h1, lookup_sizeBlock_ne _ _ h2 h3]
      rfl
    exact ⟨base _ (by decide) (by decide) (by decide),
      base _ (by decide) (by decide) (by decide),
      base _ (by decide) (by decide) (by decide),
      base _ (by decide) (by decide) (by decide),
      base _ (by decide) (by decide) (by decide),
      base _ (by decide) (by decide) (by decide),
      base _ (by decide) (by decide) (by decide)⟩
  · intro bbox hb
    constructor
    · simp only [build_layout_style]
      rw [lookup_radiusBlock_ne _ _ (by decide), lookup_sizeBlock_width _ _ hb]
    · simp only [build_layout_style]
      rw [lookup_radiusBlock_ne _ _ (by decide), lookup_sizeBlock_height _ _ hb]
  · intro hr
    obtain ⟨r, hr⟩ := Option.isSome_iff_exists.mp hr
    simp only [build_layout_style]
    cases hcs : get_corner_smoothing raw with
    | none =>
      rw [lookup_radiusBlock_radius _ _ hr hcs]
      rfl
    | some t =>
      obtain ⟨s, hs, hpos, ht⟩ := get_corner_smoothing_shape raw hcs
      rw [lookup_radiusBlock_smoothing _ _ hs hpos]
      rfl

/-- Raw node used by the C5 witness: no layoutMode, a bounding box and a
corner radius. -/
def rawC5 : RawFields :=
  { absoluteBoundingBox := some ⟨⟨10, "10"⟩, ⟨20, "20"⟩⟩,
    cornerRadius := some ⟨8, "8"⟩ }

/-- Witness for C5_layout_gating on rawC5. -/
theorem C5_layout_gating_witness :
    (build_layout_style rawC5).lookup "paddingLeft" = none ∧
    (build_layout_style rawC5).lookup "width" = some (.str ("10" ++ "px")) ∧
    ((build_layout_style rawC5).lookup "borderRadius").isSome :=
  ⟨((C5_layout_gating rawC5).1 rfl).1,
   ((C5_layout_gating rawC5).2.1 ⟨⟨10, "10"⟩, ⟨20, "20"⟩⟩ rfl).1,
   (C5_layout_gating rawC5).2.2 rfl⟩

/-- C6: the fill extractor examines only the first fill: empty (or absent,
which arrives as []) fills, a first fill with visible explicitly false, or
a first fill of non-SOLID type all produce no style and leave the registry
untouched, regardless of later fills; a first visible SOLID fill produces
exactly \x7bbackgroundColor: hex, opacity: opacity-or-1\x7d. -/
theorem C6_first_fill_only (md5 : String → String) (styles : Styles) :
    get_fill_style_id md5 [] styles = .ok (none, styles) ∧
    (∀ (f : Fill) (rest : List Fill), f.visible = some false →
      get_fill_style_id md5 (f :: rest) styles = .ok (none, styles)) ∧
    (∀ (f : Fill) (rest : List Fill) (t : String), f.visible ≠ some false →
      f.type_ = some t → t ≠ "SOLID" →
      get_fill_style_id md5 (f :: rest) styles = .ok (none, styles)) ∧
    (∀ (f : Fill) (rest : List Fill) (c : RGBA), f.visible ≠ some false →
      f.type_ = some "SOLID" → f.color = some c →
      get_fill_style_id md5 (f :: rest) styles =
        .ok (some (style_hash md5
            [("backgroundColor", .str (rgba_to_hex c)),
             ("opacity", .num (f.opacity.getD jnum1))]),
          (registerStyle md5
            [("backgroundColor", .str (rgba_to_hex c)),
             ("opacity", .num (f.opacity.getD jnum1))] styles).2)) := by
  refine ⟨rfl, ?_, ?_, ?_⟩
  · intro f rest hv
    have hg : f.visible.getD true = false := (visible_getD_false f.visible).mpr hv
    simp only [get_fill_style_id, if_pos hg]
  · intro f rest t hv hty hns
    have hg : ¬ (f.visible.getD true = false) :=
      fun hh => hv ((visible_getD_false f.visible).mp hh)
    simp only [get_fill_style_id, if_neg hg, hty, getKey_some, bindE_ok,
      if_neg hns]
  · intro f rest c hv hty hc
    have hg : ¬ (f.visible.getD true = false) :=
      fun hh => hv ((visible_getD_false f.visible).mp hh)
    simp only [get_fill_style_id, if_neg hg, hty, getKey_some, bindE_ok,
      if_pos rfl, hc, if_true]
    rw [registerStyle_fst]

/-- Fills used by the C6 witness. -/
def fC6invis : Fill :=
  { type_ := some "SOLID", visible := some false, color := some ⟨1, 0, 0⟩ }

/-- An IMAGE fill at position zero. -/
def fC6img : Fill := { type_ := some "IMAGE", imageRef := some "ref" }

/-- A visible SOLID fill. -/
def fC6solid : Fill := { type_ := some "SOLID", color := some ⟨0, 0, 0⟩ }

/-- A later SOLID fill that must be ignored. -/
def fC6later : Fill := { type_ := some "SOLID", color := some ⟨1, 1, 1⟩ }

/-- Witness for C6_first_fill_only on concrete fills. -/
theorem C6_first_fill_only_witness :
    get_fill_style_id (fun s => s) [] [] = .ok (none, []) ∧
    get_fill_style_id (fun s => s) [fC6invis, fC6later] [] = .ok (none, []) ∧
    get_fill_style_id (fun s => s) [fC6img, fC6later] [] = .ok (none, []) ∧
    get_fill_style_id (fun s => s) [fC6solid, fC6later] [] =
      .ok (some (style_hash (fun s => s)
          [("backgroundColor", .str (rgba_to_hex ⟨0, 0, 0⟩)),
           ("opacity", .num (fC6solid.opacity.getD jnum1))]),
        (registerStyle (fun s => s)
          [("backgroundColor", .str (rgba_to_hex ⟨0, 0, 0⟩)),
           ("opacity", .num (fC6solid.opacity.getD jnum1))] []).2) :=
  ⟨(C6_first_fill_only (fun s => s) []).1,
   (C6_first_fill_only (fun s => s) []).2.1 fC6invis [fC6later] rfl,
   (C6_first_fill_only (fun s => s) []).2.2.1 fC6img [fC6later] "IMAGE"
     (by decide) rfl (by decide),
   (C6_first_fill_only (fun s => s) []).2.2.2 fC6solid [fC6later] ⟨0, 0, 0⟩
     (by decide) rfl rfl⟩

/-- C7: with cornerRadius present, a cornerSmoothing value greater than
zero overwrites borderRadius with the smoothing value verbatim as a pixel
length; a nonpositive or absent cornerSmoothing leaves the cornerRadius
value. -/
theorem C7_corner_precedence (raw : RawFields) (r : JNum)
    (h : raw.cornerRadius = some r) :
    (∀ s : JNum, raw.cornerSmoothing = some s → 0 < s.val →
      (build_layout_style raw).lookup "borderRadius" =
        some (.str (s.txt ++ "px"))) ∧
    (∀ s : JNum, raw.cornerSmoothing = some s → ¬ 0 < s.val →
      (build_layout_style raw).lookup "borderRadius" =
        some (.str (r.txt ++ "px"))) ∧
    (raw.cornerSmoothing = none →
      (build_layout_style raw).lookup "borderRadius" =
        some (.str (r.txt ++ "px"))) := by
  refine ⟨?_, ?_, ?_⟩
  · intro s hs hpos
    simp only [build_layout_style]
    exact lookup_radiusBlock_smoothing _ _ hs hpos
  · intro s hs hpos
    simp only [build_layout_style]
    exact lookup_radiusBlock_radius _ _ h
      (by simp [get_corner_smoothing, hs, hpos])
  · intro hs
    simp only [build_layout_style]
    exact lookup_radiusBlock_radius _ _ h (by simp [get_corner_smoothing, hs])

/-- Raw node of the C7 witness: cornerRadius 8, cornerSmoothing 0.3. -/
def rawC7 : RawFields :=
  { cornerRadius := some ⟨8, "8"⟩,
    cornerSmoothing := some ⟨mkRat 3 10, "0.3"⟩ }

/-- Witness for C7_corner_precedence: the smoothing fraction 0.3 wins over
the radius 8. -/
theorem C7_corner_precedence_witness :
    (build_layout_style rawC7).lookup "borderRadius" =
      some (.str ("0.3" ++ "px")) :=
  (C7_corner_precedence rawC7 ⟨8, "8"⟩ rfl).1 ⟨mkRat 3 10, "0.3"⟩ rfl (by decide)

/-- C9 (counterexample): with primaryAxisAlignItems present but no
layoutMode key, the alignment block is skipped entirely, so no alignItems
appears (and here no layout style at all is produced). -/
def rawC9 : RawFields := { primaryAxisAlignItems := some "CENTER" }

/-- The counterexample statement for C9. -/
theorem C9_counterexample :
    rawC9.primaryAxisAlignItems = some "CENTER" ∧
    rawC9.counterAxisAlignItems = none ∧
    (build_layout_style rawC9).lookup "alignItems" = none ∧
    get_layout_style_id (fun s => s) rawC9 [] = (none, []) := by
  refine ⟨rfl, rfl, ?_, ?_⟩ <;> decide

/-- C9 (amended): for a node whose layoutMode key is present (whatever its
value), primaryAxisAlignItems present and counterAxisAlignItems absent,
the layout style maps alignItems to "flex-start" (the counter axis
defaults to "MIN", and the alignment mapping sends "MIN" — and any
unrecognized value — to "flex-start"). -/
theorem C9_alignment_default (raw : RawFields) (lm p : String)
    (hlm : raw.layoutMode = some lm) (hp : raw.primaryAxisAlignItems = some p)
    (hc : raw.counterAxisAlignItems = none) :
    (build_layout_style raw).lookup "alignItems" =
      some (.str "flex-start") ∧
    figma_align_to_flex "MIN" = "flex-start" ∧
    (∀ v, v ≠ "MIN" → v ≠ "CENTER" → v ≠ "MAX" → v ≠ "SPACE_BETWEEN" →
      figma_align_to_flex v = "flex-start") := by
  refine ⟨?_, rfl, ?_⟩
  · simp only [build_layout_style, hlm]
    rw [lookup_radiusBlock_ne _ _ (by decide),
      lookup_sizeBlock_ne _ _ (by decide) (by decide),
      lookup_alignBlock_alignItems _ _ hp, hc]
    rfl
  · intro v h1 h2 h3 h4
    simp [figma_align_to_flex, h1, h2, h3, h4]

/-- Raw node of the C9 witness: a vertical auto-layout frame with a
primary alignment only. -/
def rawC9w : RawFields :=
  { layoutMode := some "VERTICAL", primaryAxisAlignItems := some "CENTER" }

/-- Witness for C9_alignment_default on rawC9w. -/
theorem C9_alignment_default_witness :
    (build_layout_style rawC9w).lookup "alignItems" =
      some (.str "flex-start") ∧
    figma_align_to_flex "MIN" = "flex-start" ∧
    (∀ v, v ≠ "MIN" → v ≠ "CENTER" → v ≠ "MAX" → v ≠ "SPACE_BETWEEN" →
      figma_align_to_flex v = "flex-start") :=
  C9_alignment_default rawC9w "VERTICAL" "CENTER" rfl rfl rfl

/-- C8 (amended): a first fill that declares type SOLID, carries no color
key, and passes the visibility guard (its visible flag is not explicitly
false) makes the whole transform fail with KeyError("color") — the error
names the missing field; no partial fill style is emitted and such a fill
is not skipped.  (A first fill with visible explicitly false is returned
on at the visibility guard before its color is ever read, so there the
transform succeeds and the fill is silently skipped: see
C8_counterexample.) -/
theorem C8_missing_color (md5 : String → String) (rf : RawFields)
    (kids : Option (List RawNode)) (styles : Styles)
    (i n t : String) (f : Fill) (rest : List Fill)
    (hid : rf.id = some i) (hnm : rf.name = some n) (hty : rf.type_ = some t)
    (hfills : rf.fills = some (f :: rest))
    (hvis : f.visible ≠ some false)
    (hsolid : f.type_ = some "SOLID") (hcol : f.color = none) :
    transform_node md5 (.mk rf kids) styles = .error (.keyError "color") := by
  have hg : ¬ (f.visible.getD true = false) :=
    fun hh => hvis ((visible_getD_false f.visible).mp hh)
  have hfill : get_fill_style_id md5 (rf.fills.getD []) styles
      = .error (.keyError "color") := by
    rw [hfills]
    simp only [Option.getD_some]
    simp only [get_fill_style_id, if_neg hg, hsolid, getKey_some, bindE_ok,
      if_pos rfl, hcol, getKey_none, bindE_err, if_true]
  rw [transform_node]
  simp only [hty, getKey_some, bindE_ok, hid, hnm, hfill, bindE_err]

/-- Fill and node of the C8 witness: SOLID declared, color missing. -/
def fC8 : Fill := { type_ := some "SOLID", opacity := some ⟨1, "1"⟩ }

/-- Raw fields of the C8 witness node. -/
def rfC8 : RawFields :=
  { id := some "9:1", name := some "bad", type_ := some "FRAME",
    fills := some [fC8] }

/-- Witness for C8_missing_color. -/
theorem C8_missing_color_witness :
    transform_node (fun s => s) (.mk rfC8 none) [] =
      .error (.keyError "color") :=
  C8_missing_color (fun s => s) rfC8 none [] "9:1" "bad" "FRAME" fC8 []
    rfl rfl rfl rfl (by decide) rfl rfl

/-- First fill of the C8 counterexample: SOLID declared, no color key,
but visible explicitly false. -/
def fC8inv : Fill := { type_ := some "SOLID", visible := some false }

/-- Raw fields of the C8 counterexample node. -/
def rfC8inv : RawFields :=
  { id := some "9:2", name := some "quiet", type_ := some "FRAME",
    fills := some [fC8inv] }

/-- C8 (counterexample): the claim as stated is false for a first fill
that declares type SOLID and lacks color but has visible explicitly
false: the visibility guard (clean_node.py line 36) returns before the
color is ever read, so the transform SUCCEEDS — the fill is silently
skipped (no fillStyleId) instead of failing with an error. -/
theorem C8_counterexample :
    rfC8inv.fills = some [fC8inv] ∧
    fC8inv.type_ = some "SOLID" ∧
    fC8inv.color = none ∧
    fC8inv.visible = some false ∧
    ((transform_node (fun s => s) (.mk rfC8inv none) []).toOption.map
      fun p => p.1.fields.fillStyleId) = some none := by
  refine ⟨rfl, rfl, rfl, rfl, ?_⟩
  decide

/-- C10: the text-color rule ignores the fill's visible flag: a TEXT node
with a style sub-record whose first fill is SOLID but explicitly invisible
still gets a color in its text style (and a text style id), while the fill
extractor produces nothing for the same node. -/
theorem C10_text_color_ignores_visibility (md5 : String → String)
    (rf : RawFields) (ns : NodeStyle) (f : Fill) (rest : List Fill)
    (c : RGBA) (styles : Styles)
    (hty : rf.type_ = some "TEXT") (hst : rf.style = some ns)
    (hfills : rf.fills = some (f :: rest))
    (hsolid : f.type_ = some "SOLID") (hvis : f.visible = some false)
    (hcol : f.color = some c) :
    build_text_style ns rf =
      .ok (setKey (textFieldsBlock ns) "color" (.str (rgba_to_hex c))) ∧
    (setKey (textFieldsBlock ns) "color" (.str (rgba_to_hex c))).lookup
      "color" = some (.str (rgba_to_hex c)) ∧
    get_fill_style_id md5 (rf.fills.getD []) styles = .ok (none, styles) ∧
    (∃ sid styles₂,
      get_text_style_id md5 rf styles = .ok (some sid, styles₂)) := by
  have hbuild : build_text_style ns rf =
      .ok (setKey (textFieldsBlock ns) "color" (.str (rgba_to_hex c))) := by
    unfold build_text_style
    simp only [textColorBlock, hfills, hsolid, getKey_some, bindE_ok,
      if_pos rfl, hcol, if_true]
  refine ⟨hbuild, lookup_setKey_self _ _ _, ?_, ?_⟩
  · have hg : f.visible.getD true = false :=
      (visible_getD_false f.visible).mpr hvis
    rw [hfills]
    simp only [Option.getD_some]
    simp only [get_fill_style_id, if_pos hg]
  · rw [get_text_style_id]
    simp only [hty, getKey_some, bindE_ok,
      if_neg (by simp : ¬ ("TEXT" : String) ≠ "TEXT"), hst, hbuild, bindE_ok,
      if_neg (setKey_ne_nil _ _ _)]
    exact ⟨_, _, rfl⟩

/-- Node style and fill of the C10 witness. -/
def nsC10 : NodeStyle := { fontSize := some ⟨12, "12"⟩ }

/-- The invisible SOLID fill of the C10 witness. -/
def fC10 : Fill :=
  { type_ := some "SOLID", visible := some false, color := some ⟨1, 0, 0⟩ }

/-- Raw fields of the C10 witness node. -/
def rfC10 : RawFields :=
  { id := some "t1", name := some "label", type_ := some "TEXT",
    style := some nsC10, fills := some [fC10] }

/-- Witness for C10_text_color_ignores_visibility. -/
theorem C10_text_color_witness :
    build_text_style nsC10 rfC10 =
      .ok (setKey (textFieldsBlock nsC10) "color"
        (.str (rgba_to_hex ⟨1, 0, 0⟩))) ∧
    (setKey (textFieldsBlock nsC10) "color"
      (.str (rgba_to_hex ⟨1, 0, 0⟩))).lookup "color" =
        some (.str (rgba_to_hex ⟨1, 0, 0⟩)) ∧
    get_fill_style_id (fun s => s) (rfC10.fills.getD []) [] = .ok (none, []) ∧
    (∃ sid styles₂,
      get_text_style_id (fun s => s) rfC10 [] = .ok (some sid, styles₂)) :=
  C10_text_color_ignores_visibility (fun s => s) rfC10 nsC10 fC10 [] ⟨1, 0, 0⟩
    [] rfl rfl rfl rfl rfl rfl

/-- Modelled from the spec's observed behavior, amended: the imageRef kept
on the node is the one of the LAST fill whose declared type is IMAGE and
which carries an imageRef key (each match overwrites the previous one). -/
def lastImageRef (fills : List Fill) : Option String :=
  match (fills.filter imageFillP).getLast? with
  | some f => f.imageRef
  | none => none

/-- C1 (amended): for a RECTANGLE raw node with a fills key, a successful
transform gives the node the imageRef of the LAST image fill carrying an
imageRef (not the first): the loop has no break and later matches
overwrite earlier ones. -/
theorem C1_image_ref_last (md5 : String → String) (rf : RawFields)
    (kids : Option (List RawNode)) (styles styles' : Styles)
    (fills : List Fill) (node : SimpNode)
    (hty : rf.type_ = some "RECTANGLE") (hfills : rf.fills = some fills)
    (h : transform_node md5 (.mk rf kids) styles = .ok (node, styles')) :
    node.fields.imageRef = lastImageRef fills := by
  obtain ⟨ty, iref, mid, hty', hiref, hpos, hneg, _, _⟩ :=
    transform_node_ok_inv md5 rf kids styles node styles' h
  have hty2 : ty = "RECTANGLE" := by
    rw [hty] at hty'
    exact (Option.some.inj hty').symm
  have hcond : ty = "RECTANGLE" ∧ rf.fills.isSome = true :=
    ⟨hty2, by rw [hfills]; rfl⟩
  have hloop := hpos hcond
  rw [hfills] at hloop
  simp only [Option.getD_some] at hloop
  have hspec := imageRefLoop_ok_spec fills none iref hloop
  rw [hiref, hspec, lastImageRef]

/-- The fills of the C1 counterexample: two image fills, refs "a" then
"b". -/
def fillsC1 : List Fill :=
  [{ type_ := some "IMAGE", imageRef := some "a" },
   { type_ := some "IMAGE", imageRef := some "b" }]

/-- Raw fields of the C1 counterexample rectangle. -/
def rfC1 : RawFields :=
  { id := some "1", name := some "r", type_ := some "RECTANGLE",
    fills := some fillsC1 }

/-- C1 (counterexample): on a rectangle whose fills hold image refs "a"
then "b", the transformed node carries imageRef "b" — the LAST matching
entry — while the FIRST matching entry's ref is "a"; the claim that the
first one wins is false here. -/
theorem C1_counterexample :
    ((transform_node (fun s => s) (.mk rfC1 none) []).toOption.map
      fun p => p.1.fields.imageRef) = some (some "b") ∧
    ((fillsC1.filter imageFillP).head?.bind Fill.imageRef) = some "a" ∧
    (some "b" : Option String) ≠ some "a" := by
  refine ⟨?_, ?_, ?_⟩ <;> decide

/-- Expected output node of the C1 witness. -/
def nodeC1 : SimpNode :=
  .mk { id := "1", name := "r", type_ := "RECTANGLE", visible := true,
        imageRef := some "b" } none

/-- Witness for C1_image_ref_last on the concrete rectangle. -/
theorem C1_image_ref_last_witness :
    nodeC1.fields.imageRef = lastImageRef fillsC1 :=
  C1_image_ref_last (fun s => s) rfC1 none [] [] fillsC1 nodeC1
    rfl rfl (by rfl)

/-- C4: the children loop is exactly the ordered sequential transform of
the children passing the visibility filter (a child is skipped precisely
when its visible flag is explicitly false), and every subtree of the
output is the transform of a raw node reachable from the root through
visible children only — so nothing below an invisible child, not even a
visible descendant, ever appears in the output. -/
theorem C4_pruning (md5 : String → String) :
    (∀ (cs : List RawNode) (styles : Styles),
      transformChildren md5 cs styles =
        transformChildrenAll md5
          (cs.filter fun c => c.fields.visible.getD true) styles) ∧
    (∀ c : RawNode, (c.fields.visible.getD true = false) ↔
      c.fields.visible = some false) ∧
    (∀ (raw : RawNode) (styles : Styles) (node : SimpNode) (styles' : Styles),
      transform_node md5 raw styles = .ok (node, styles') →
      ∀ m, SOccurs m node →
        ∃ d s₁ s₂, VisReach raw d ∧ transform_node md5 d s₁ = .ok (m, s₂)) :=
  ⟨transformChildren_eq_filter md5,
   fun c => visible_getD_false c.fields.visible,
   fun raw styles node styles' h m hm =>
     transform_occurs md5 raw styles node styles' h m hm⟩

/-- Grandchild sitting below the invisible child of the C4 witness. -/
def rcInvisGrand : RawNode :=
  .mk { id := some "4", name := some "g", type_ := some "TEXT" } none

/-- The invisible child (whole subtree must be pruned). -/
def rcInvis : RawNode :=
  .mk { id := some "2", name := some "hidden", type_ := some "FRAME",
        visible := some false } (some [rcInvisGrand])

/-- The visible child. -/
def rcVis : RawNode :=
  .mk { id := some "3", name := some "shown", type_ := some "RECTANGLE" }
    none

/-- Children list of the C4 witness. -/
def csC4 : List RawNode := [rcInvis, rcVis]

/-- Root raw node of the C4 witness. -/
def rawC4 : RawNode :=
  .mk { id := some "1", name := some "root", type_ := some "FRAME" }
    (some csC4)

/-- Transform of the visible child. -/
def outVis : SimpNode :=
  .mk { id := "3", name := "shown", type_ := "RECTANGLE", visible := true }
    none

/-- Expected output of the C4 witness root. -/
def nodeC4 : SimpNode :=
  .mk { id := "1", name := "root", type_ := "FRAME", visible := true }
    (some [outVis])

/-- Witness for C4_pruning on a concrete tree with an invisible subtree. -/
theorem C4_pruning_witness :
    transformChildren (fun s => s) csC4 [] =
      transformChildrenAll (fun s => s)
        (csC4.filter fun c => c.fields.visible.getD true) [] ∧
    (rcInvis.fields.visible.getD true = false) ∧
    (∃ d s₁ s₂, VisReach rawC4 d ∧
      transform_node (fun s => s) d s₁ = .ok (nodeC4, s₂)) :=
  ⟨(C4_pruning (fun s => s)).1 csC4 [],
   ((C4_pruning (fun s => s)).2.1 rcInvis).mpr rfl,
   (C4_pruning (fun s => s)).2.2 rawC4 [] nodeC4 [] (by rfl) nodeC4
     (.refl nodeC4)⟩
